import Mathlib

/-!
Verification development for the smart-energy-platform analytics core
(analysis.py, carbon_footprint.py, energy_prediction_model.py).

Modelling conventions:
- Python floats are modelled as exact rationals.
- Timestamps are integers counting minutes since 1970-01-01 00:00 (so the
  calendar date of a timestamp is its floor-division by 1440).
- A pandas DataFrame is a list of records; a groupby result is a list of
  key/value pairs ordered by ascending key (pandas sorts group keys).
- Fallible operations return an Except value; the error string names the
  Python exception message that the source raises on that path.
-/

namespace SmartEnergy

/-- One row of the readings table, as read by analysis.py: a timestamp
(minutes since the epoch) and the energy_consumed_kwh column. -/
structure Reading where
  timestamp : ℤ
  energy_consumed_kwh : ℚ
  deriving Repr, DecidableEq

/-- Truncation of a timestamp to its calendar date, modelling
pd.to_datetime(...).dt.date in analysis.py step 3: all timestamps within
the same day of 1440 minutes map to the same date index. -/
def dateOf (ts : ℤ) : ℤ := ts.fdiv 1440

/-- Embedding of analysis.calculate_daily_consumption: extract the date of
each reading, group by date, and sum the energy column within each group.
Group keys are returned in ascending order, as pandas groupby does. -/
def calculate_daily_consumption (rs : List Reading) : List (ℤ × ℚ) :=
  let keys := (rs.map (fun r => dateOf r.timestamp)).dedup
  let sortedKeys := List.insertionSort (· ≤ ·) keys
  sortedKeys.map (fun d =>
    (d, ((rs.filter (fun r => dateOf r.timestamp = d)).map
          (fun r => r.energy_consumed_kwh)).sum))

/-- Default emission factor from carbon_footprint.py (US average). -/
def DEFAULT_EMISSION_FACTOR : ℚ := 385 / 1000

/-- Embedding of carbon_footprint.calculate_daily_co2_emissions:
daily CO2 in kg is daily energy in kWh times the emission factor. -/
def calculate_daily_co2_emissions (daily_energy_kwh : ℚ)
    (emission_factor : ℚ) : ℚ :=
  daily_energy_kwh * emission_factor

/-- One row of the daily CO2 breakdown of
carbon_footprint.calculate_monthly_co2_from_dataframe. -/
structure DailyCO2 where
  date : ℤ
  total_energy_kwh : ℚ
  co2_kg : ℚ
  deriving Repr, DecidableEq

/-- Embedding of carbon_footprint.calculate_monthly_co2_from_dataframe:
group energy by calendar date (same grouping as
calculate_daily_consumption), multiply each daily total by the emission
factor, and also return the sum of the per-day CO2 values. -/
def calculate_monthly_co2_from_dataframe (rs : List Reading) (f : ℚ) :
    List DailyCO2 × ℚ :=
  let daily := calculate_daily_consumption rs
  let rows := daily.map (fun p =>
    { date := p.1, total_energy_kwh := p.2, co2_kg := p.2 * f : DailyCO2 })
  (rows, (rows.map (fun row => row.co2_kg)).sum)

/-! Helper lemmas for the group-by sum invariant. -/

def sampleReadings : List Reading :=
  [{ timestamp := 29465760, energy_consumed_kwh := 100 },
   { timestamp := 29465820, energy_consumed_kwh := 150 },
   { timestamp := 29467200, energy_consumed_kwh := 200 }]

def roundHalfEven (x : ℚ) : ℤ :=
  if x - Int.floor x < 1 / 2 then Int.floor x
  else if 1 / 2 < x - Int.floor x then Int.floor x + 1
  else if Int.floor x % 2 = 0 then Int.floor x else Int.floor x + 1

/-- Rounding to two decimal places, modelling round(x, 2) in predict. -/
def round2 (x : ℚ) : ℚ := (roundHalfEven (100 * x) : ℚ) / 100

def tsDays (ts : ℤ) : ℤ := ts.fdiv 1440

/-- Hour of day of a timestamp, 0 to 23 (datetime .hour). -/
def tsHour (ts : ℤ) : ℤ := (ts.emod 1440).fdiv 60

/-- Day of week, 0 = Monday to 6 = Sunday (datetime .weekday); the epoch
day 1970-01-01 was a Thursday, weekday 3. -/
def tsWeekday (ts : ℤ) : ℤ := (tsDays ts + 3).emod 7

/-- Gregorian calendar fields (year, month, day) of a day count since the
epoch, by the standard civil-from-days conversion. -/
def civilFromDays (z0 : ℤ) : ℤ × ℤ × ℤ :=
  let z := z0 + 719468
  let era := z.fdiv 146097
  let doe := z - era * 146097
  let yoe := (doe - doe.fdiv 1460 + doe.fdiv 36524 - doe.fdiv 146096).fdiv 365
  let y := yoe + era * 400
  let doy := doe - (365 * yoe + yoe.fdiv 4 - yoe.fdiv 100)
  let mp := (5 * doy + 2).fdiv 153
  let d := doy - (153 * mp + 2).fdiv 5 + 1
  let m := mp + (if mp < 10 then 3 else -9)
  (if m ≤ 2 then y + 1 else y, m, d)

/-- Month of a timestamp, 1 to 12 (datetime .month). -/
def tsMonth (ts : ℤ) : ℤ := (civilFromDays (tsDays ts)).2.1

/-- Day of month of a timestamp, 1 to 31 (datetime .day). -/
def tsDayOfMonth (ts : ℤ) : ℤ := (civilFromDays (tsDays ts)).2.2

/-- Embedding of EnergyConsumptionPredictor.extract_time_features: the six
time features hour, day_of_week, day_of_month, month, is_weekend,
is_business_hour. -/
def extract_time_features (ts : ℤ) : List ℚ :=
  [(tsHour ts : ℚ), (tsWeekday ts : ℚ), (tsDayOfMonth ts : ℚ),
   (tsMonth ts : ℚ),
   if 5 ≤ tsWeekday ts then 1 else 0,
   if 9 ≤ tsHour ts ∧ tsHour ts < 17 then 1 else 0]

/-- State of an EnergyConsumptionPredictor: the linear model weights and
the is_trained flag. The untrained initial state has empty weights; train
fits them by ordinary least squares (the fitted values themselves are not
needed by any claim, so the claims below quantify over arbitrary weights). -/
structure EnergyConsumptionPredictor where
  coef : List ℚ
  intercept : ℚ
  is_trained : Bool
  deriving Repr, DecidableEq

/-- The freshly constructed, untrained predictor. -/
def EnergyConsumptionPredictor.untrained : EnergyConsumptionPredictor :=
  { coef := [], intercept := 0, is_trained := false }

/-- The raw linear-model output for a timestamp: intercept plus the dot
product of the coefficients with the feature vector (sklearn
LinearRegression.predict on one row). -/
def rawPredict (m : EnergyConsumptionPredictor) (ts : ℤ) : ℚ :=
  m.intercept
    + (List.zipWith (fun c x => c * x) m.coef (extract_time_features ts)).sum

/-- Result record of predict (timestamp, rounded clamped prediction, and
the feature vector used). -/
structure PredictResult where
  timestamp : ℤ
  predicted_energy_kwh : ℚ
  features : List ℚ
  deriving Repr, DecidableEq

/-- Embedding of EnergyConsumptionPredictor.predict: raises (returns an
error) when untrained; otherwise clamps the raw model output at 0 and
rounds it to two decimal places. -/
def EnergyConsumptionPredictor.predict (m : EnergyConsumptionPredictor)
    (ts : ℤ) : Except String PredictResult :=
  if m.is_trained = false then
    .error "Model must be trained before making predictions. Call train() with historical data first."
  else
    .ok { timestamp := ts,
          predicted_energy_kwh := round2 (max 0 (rawPredict m ts)),
          features := extract_time_features ts }

/-- Embedding of pd.date_range(start, stop, freq) over integer-minute
timestamps with an integer-minute step. A zero step raises (pandas:
offset must not be zero). A positive step yields the ascending sequence
from start to stop inclusive, empty when stop is before start. A negative
step yields the descending sequence from start down to stop inclusive,
empty when start is before stop. -/
def dateRange (start stop step : ℤ) : Except String (List ℤ) :=
  if step = 0 then .error "Offset did not increment date"
  else if 0 < step then
    if stop < start then .ok []
    else .ok ((List.range ((stop - start).toNat / step.toNat + 1)).map
      (fun k => start + step * k))
  else
    if start < stop then .ok []
    else .ok ((List.range ((start - stop).toNat / (-step).toNat + 1)).map
      (fun k => start + step * k))

/-- Embedding of EnergyConsumptionPredictor.predict_range: raises when
untrained; otherwise builds the timestamp range, applies the clamped raw
model output to each timestamp, without rounding. When the range is empty
the source builds a one-dimensional empty numpy array and sklearn
check_array raises a ValueError, modelled by the error on the empty
range. -/
def EnergyConsumptionPredictor.predict_range (m : EnergyConsumptionPredictor)
    (start stop step : ℤ) : Except String (List (ℤ × ℚ)) :=
  if m.is_trained = false then
    .error "Model must be trained before making predictions."
  else
    match dateRange start stop step with
    | .error e => .error e
    | .ok [] => .error "Expected 2D array, got 1D array instead"
    | .ok tss => .ok (tss.map (fun ts => (ts, max 0 (rawPredict m ts))))

/-- The example time used inside explain_model:
datetime.now().replace(hour=14, minute=0, second=0, microsecond=0). -/
def exampleTime (now : ℤ) : ℤ := now.fdiv 1440 * 1440 + 14 * 60

/-- Embedding of EnergyConsumptionPredictor.explain_model. On an untrained
model the source does NOT raise: it returns the string shown below. On a
trained model it calls self.predict at an example time and returns a long
formatted explanation; the numeric formatting of that text is irrelevant
to every claim and is abbreviated here, while the branch structure and the
embedded predict call are preserved. -/
def EnergyConsumptionPredictor.explain_model (m : EnergyConsumptionPredictor)
    (now : ℤ) : Except String String :=
  if m.is_trained = false then
    .ok "Model not trained yet. Call train() first."
  else
    match m.predict (exampleTime now) with
    | .error e => .error e
    | .ok r =>
      .ok ("HOW THE MODEL WORKS: base " ++ toString m.intercept
        ++ " kWh plus weighted time features; example prediction "
        ++ toString r.predicted_energy_kwh ++ " kWh")

/-- C2 counterexample: the claim says every one of predict, predict_range
and explain on an untrained forecaster raises; but explain_model on the
untrained predictor returns a normal string result instead of raising. -/
def trainedZero : EnergyConsumptionPredictor :=
  { coef := [0, 0, 0, 0, 0, 0], intercept := 0, is_trained := true }

/-- C3: after a forecaster has been trained, predict and predict_range
never return a negative predicted_energy_kwh, for any timestamp and any
weights (negative raw model outputs are clamped to 0). -/
def trainedSmallIntercept : EnergyConsumptionPredictor :=
  { coef := [], intercept := 1 / 1000, is_trained := true }

/-- C10: on a trained forecaster, predict returns the clamped raw model
output rounded to two decimal places, predict_range returns the unrounded
clamped output for the same timestamp, the two agree within the rounding
bound of half of one hundredth, and there is a trained forecaster and a
timestamp at which they are not exactly equal. -/
def rollingAvg (xs : List ℚ) (w : ℕ) (i : ℕ) : ℚ :=
  let win := (xs.take (i + 1)).drop (i + 1 - w)
  win.sum / (win.length : ℚ)

/-- The deviation column: power minus rolling average, one entry per row. -/
def deviations (xs : List ℚ) (w : ℕ) : List ℚ :=
  (List.range xs.length).map (fun i => xs.getD i 0 - rollingAvg xs w i)

/-- Sample variance with one delta degree of freedom, the square of the
pandas Series.std() default. On a single-element series pandas std is NaN
and the strict comparison below is false; the rational model gives 0 there
by division by zero, and the comparison is likewise false, so the observable
anomaly flags agree. -/
def sampleVariance (l : List ℚ) : ℚ :=
  (l.map (fun x => (x - l.sum / (l.length : ℚ)) ^ 2)).sum
    / ((l.length : ℚ) - 1)

/-- The anomaly test of row i: deviation strictly greater than
deviation_threshold times the standard deviation of the whole deviation
column (data.deviation > threshold * data.deviation.std()). -/
def IsAnomalyAt (xs : List ℚ) (w : ℕ) (t : ℚ) (i : ℕ) : Prop :=
  (t : ℝ) * Real.sqrt ((sampleVariance (deviations xs w) : ℚ) : ℝ)
    < (((deviations xs w).getD i 0 : ℚ) : ℝ)

/-- One output row of detect_abnormal_spikes: the original power value
plus the rolling_avg, deviation and is_anomaly columns. -/
structure AnomalyRecord where
  power : ℚ
  rolling_avg : ℚ
  deviation : ℚ
  is_anomaly : Prop

/-- Embedding of analysis.detect_abnormal_spikes: one record per input
row, order preserved; an empty input yields an empty result. -/
def detect_abnormal_spikes (xs : List ℚ) (w : ℕ) (t : ℚ) :
    List AnomalyRecord :=
  (List.range xs.length).map (fun i =>
    { power := xs.getD i 0,
      rolling_avg := rollingAvg xs w i,
      deviation := xs.getD i 0 - rollingAvg xs w i,
      is_anomaly := IsAnomalyAt xs w t i })

def spikeExample : List ℚ := [10, 11, 12, 11, 10, 50, 11, 10, 9]

/-- C5: on the power series 10,11,12,11,10,50,11,10,9 with window_size 3
and deviation_threshold 2.0, detect_abnormal_spikes flags exactly the row
holding the value 50 (index 5) and no other row. -/
def interpAt (s : List ℚ) (h : ℚ) : ℚ :=
  s.getD (Int.floor h).toNat 0
    + (h - Int.floor h)
      * (s.getD (Int.ceil h).toNat 0 - s.getD (Int.floor h).toNat 0)

/-- Embedding of Series.quantile(q) with linear interpolation: sort the
values and interpolate at rank q * (n - 1). -/
def quantileLinear (xs : List ℚ) (q : ℚ) : ℚ :=
  interpAt (List.insertionSort (· ≤ ·) xs) (q * ((xs.length : ℚ) - 1))

/-- Minimum of a list with 0 for the empty list (Series.min() of an empty
series is NaN; that branch is unreachable for valid percentiles since the
maximum power is always at or above the threshold). -/
def listMinD : List ℚ → ℚ
  | [] => 0
  | x :: t => t.foldl min x

/-- Maximum of a list with 0 for the empty list, as listMinD. -/
def listMaxD : List ℚ → ℚ
  | [] => 0
  | x :: t => t.foldl max x

/-- Result record of identify_peak_periods. -/
structure PeakSummary where
  peak_threshold : ℚ
  peak_count : ℕ
  peak_percentage : ℚ
  average_peak_power : ℚ
  min_peak_power : ℚ
  max_peak_power : ℚ

/-- Embedding of analysis.identify_peak_periods: percentile threshold via
quantile(percentile / 100), then statistics over the readings at or above
the threshold. On an empty frame the Python function raises
ZeroDivisionError at the peak_percentage computation (0 / 0); the quantile
of the empty series is NaN and the filter selects nothing, so nothing else
is observable before the raise, modelled as an immediate error. -/
def identify_peak_periods (xs : List ℚ) (percentile : ℚ) :
    Except String PeakSummary :=
  if xs = [] then .error "division by zero"
  else
    let t := quantileLinear xs (percentile / 100)
    let peaks := xs.filter (fun x => t ≤ x)
    .ok { peak_threshold := t,
          peak_count := peaks.length,
          peak_percentage := ((peaks.length : ℚ) / (xs.length : ℚ)) * 100,
          average_peak_power := peaks.sum / (peaks.length : ℚ),
          min_peak_power := listMinD peaks,
          max_peak_power := listMaxD peaks }


/-! Lemmas and theorems. -/

lemma sum_map_ite_single (k : ℤ) (e : ℚ) :
    ∀ ks : List ℤ, ks.Nodup → k ∈ ks →
      (ks.map (fun d => if k = d then e else 0)).sum = e := by
  intro ks
  induction ks with
  | nil => intro _ hmem; cases hmem
  | cons a t ih =>
    intro hnd hmem
    rcases List.mem_cons.mp hmem with h | h
    · subst h
      have hz : ∀ d ∈ t, (fun d => if k = d then e else 0) d = 0 := by
        intro d hd
        have hne : k ≠ d := by
          intro hkd
          exact (List.nodup_cons.mp hnd).1 (hkd ▸ hd)
        simp [hne]
      have : (t.map (fun d => if k = d then e else 0)).sum = 0 := by
        rw [List.map_congr_left hz]
        simp
      simp [this]
    · have hne : k ≠ a := by
        intro hka
        exact (List.nodup_cons.mp hnd).1 (hka ▸ h)
      have := ih (List.nodup_cons.mp hnd).2 h
      simp [hne, this]

lemma sum_fiberwise (key : Reading → ℤ) (val : Reading → ℚ) :
    ∀ (rs : List Reading) (ks : List ℤ), ks.Nodup →
      (∀ r ∈ rs, key r ∈ ks) →
      (ks.map (fun d => ((rs.filter (fun r => key r = d)).map val).sum)).sum
        = (rs.map val).sum := by
  intro rs
  induction rs with
  | nil => intro ks _ _; simp
  | cons r rs ih =>
    intro ks hnd hcov
    have hmem : key r ∈ ks := hcov r (List.mem_cons_self r rs)
    have hcov' : ∀ x ∈ rs, key x ∈ ks :=
      fun x hx => hcov x (List.mem_cons_of_mem r hx)
    have hpt : ∀ d ∈ ks,
        (fun d => (((r :: rs).filter (fun x => key x = d)).map val).sum) d
          = (fun d => (if key r = d then val r else 0)
              + ((rs.filter (fun x => key x = d)).map val).sum) d := by
      intro d _
      by_cases h : key r = d
      · simp [List.filter_cons, h]
      · simp [List.filter_cons, h]
    rw [List.map_congr_left hpt, List.sum_map_add,
      sum_map_ite_single (key r) (val r) ks hnd hmem, ih ks hnd hcov']
    simp

/-- C1: for every non-empty reading set, the sum of total_energy_kwh over
all rows returned by calculate_daily_consumption equals the sum of the
input energy_consumed_kwh column (exactly, in the rational model, hence
within any floating tolerance). -/
theorem calculate_daily_consumption_preserves_total (rs : List Reading)
    (_hne : rs ≠ []) :
    ((calculate_daily_consumption rs).map Prod.snd).sum
      = (rs.map (fun r => r.energy_consumed_kwh)).sum := by
  clear _hne
  unfold calculate_daily_consumption
  set keys := (rs.map (fun r => dateOf r.timestamp)).dedup with hkeys
  have hperm : List.Perm (List.insertionSort (· ≤ ·) keys) keys :=
    List.perm_insertionSort _ _
  have hmapmap :
      ((List.insertionSort (· ≤ ·) keys).map (fun d =>
        (d, ((rs.filter (fun r => dateOf r.timestamp = d)).map
              (fun r => r.energy_consumed_kwh)).sum))).map Prod.snd
      = (List.insertionSort (· ≤ ·) keys).map (fun d =>
          ((rs.filter (fun r => dateOf r.timestamp = d)).map
            (fun r => r.energy_consumed_kwh)).sum) := by
    rw [List.map_map]
    rfl
  rw [hmapmap]
  have hps :
      ((List.insertionSort (· ≤ ·) keys).map (fun d =>
          ((rs.filter (fun r => dateOf r.timestamp = d)).map
            (fun r => r.energy_consumed_kwh)).sum)).sum
        = (keys.map (fun d =>
          ((rs.filter (fun r => dateOf r.timestamp = d)).map
            (fun r => r.energy_consumed_kwh)).sum)).sum :=
    (hperm.map _).sum_eq
  rw [hps]
  exact sum_fiberwise (fun r => dateOf r.timestamp)
    (fun r => r.energy_consumed_kwh) rs keys (hkeys ▸ List.nodup_dedup _)
    (fun r hr => List.mem_dedup.mpr (List.mem_map_of_mem _ hr))

/-- Sample readings for witnesses: the scenario from the spec, two rows on
2026-01-01 (08:00 and 09:00) and one row on 2026-01-02 (08:00). -/
theorem calculate_daily_consumption_preserves_total_witness :
    ((calculate_daily_consumption sampleReadings).map Prod.snd).sum
      = (sampleReadings.map (fun r => r.energy_consumed_kwh)).sum :=
  calculate_daily_consumption_preserves_total sampleReadings (by simp [sampleReadings])

/-- C9: CO2 conversion is linear and exact: co2 equals energy times
factor, doubling the energy doubles the CO2, converting 500 kWh at factor
0.385 yields exactly 192.5 kg, and every row of the daily breakdown of
calculate_monthly_co2_from_dataframe satisfies co2 = energy times factor. -/
theorem carbon_conversion_linear :
    (∀ e f : ℚ, calculate_daily_co2_emissions e f = e * f) ∧
    (∀ e f : ℚ, calculate_daily_co2_emissions (2 * e) f
        = 2 * calculate_daily_co2_emissions e f) ∧
    calculate_daily_co2_emissions 500 (385 / 1000) = 192.5 ∧
    (∀ (rs : List Reading) (f : ℚ),
      ∀ row ∈ (calculate_monthly_co2_from_dataframe rs f).1,
        row.co2_kg = row.total_energy_kwh * f) := by
  refine ⟨fun e f => rfl, fun e f => by unfold calculate_daily_co2_emissions; ring,
    by norm_num [calculate_daily_co2_emissions], ?_⟩
  intro rs f row hrow
  unfold calculate_monthly_co2_from_dataframe at hrow
  simp only [List.mem_map] at hrow
  obtain ⟨p, _, rfl⟩ := hrow
  rfl

theorem carbon_conversion_linear_witness :
    calculate_daily_co2_emissions 500 (385 / 1000) = 192.5 :=
  carbon_conversion_linear.2.2.1

/-! Embedding of energy_prediction_model.py. -/

/-- Rounding of a rational to the nearest integer with ties to even,
modelling the Python built-in round. -/
lemma roundHalfEven_nonneg (x : ℚ) (hx : 0 ≤ x) : 0 ≤ roundHalfEven x := by
  have hf : 0 ≤ Int.floor x := Int.floor_nonneg.mpr hx
  unfold roundHalfEven
  split_ifs <;> omega

lemma round2_nonneg (x : ℚ) (hx : 0 ≤ x) : 0 ≤ round2 x := by
  unfold round2
  have h : 0 ≤ roundHalfEven (100 * x) :=
    roundHalfEven_nonneg _ (by positivity)
  positivity

lemma abs_roundHalfEven_sub (x : ℚ) : |(roundHalfEven x : ℚ) - x| ≤ 1 / 2 := by
  have h1 : (Int.floor x : ℚ) ≤ x := Int.floor_le x
  have h2 : x < Int.floor x + 1 := Int.lt_floor_add_one x
  unfold roundHalfEven
  split_ifs with hr hr2 hpar
  · exact abs_le.mpr ⟨by linarith, by linarith⟩
  · exact abs_le.mpr ⟨by push_cast; linarith, by push_cast; linarith⟩
  · exact abs_le.mpr ⟨by linarith, by linarith⟩
  · exact abs_le.mpr ⟨by push_cast; linarith, by push_cast; linarith⟩

lemma abs_round2_sub (x : ℚ) : |round2 x - x| ≤ 1 / 200 := by
  have h := abs_roundHalfEven_sub (100 * x)
  have hrw : round2 x - x = ((roundHalfEven (100 * x) : ℚ) - 100 * x) / 100 := by
    unfold round2; ring
  rw [hrw, abs_div]
  rw [show |(100 : ℚ)| = 100 by norm_num]
  linarith [h]

/-- Number of days since the epoch containing the given timestamp. -/
theorem explain_model_untrained_returns_ok :
    EnergyConsumptionPredictor.untrained.explain_model 0
      = .ok "Model not trained yet. Call train() first." := rfl

/-- C2 amended: on an untrained forecaster, predict and predict_range fail
with a not-trained error, while explain_model returns a not-trained
message string as a normal result rather than raising. -/
theorem untrained_calls_behavior (m : EnergyConsumptionPredictor)
    (h : m.is_trained = false) (ts start stop step now : ℤ) :
    m.predict ts = .error "Model must be trained before making predictions. Call train() with historical data first."
    ∧ m.predict_range start stop step
        = .error "Model must be trained before making predictions."
    ∧ m.explain_model now = .ok "Model not trained yet. Call train() first." := by
  refine ⟨?_, ?_, ?_⟩ <;>
    simp [EnergyConsumptionPredictor.predict,
      EnergyConsumptionPredictor.predict_range,
      EnergyConsumptionPredictor.explain_model, h]

theorem untrained_calls_behavior_witness :
    EnergyConsumptionPredictor.untrained.predict 0
      = .error "Model must be trained before making predictions. Call train() with historical data first."
    ∧ EnergyConsumptionPredictor.untrained.predict_range 0 60 1
        = .error "Model must be trained before making predictions."
    ∧ EnergyConsumptionPredictor.untrained.explain_model 0
        = .ok "Model not trained yet. Call train() first." :=
  untrained_calls_behavior EnergyConsumptionPredictor.untrained rfl 0 0 60 1 0

/-- A concrete trained predictor with zero weights, for witnesses. -/
theorem trained_predictions_nonneg (m : EnergyConsumptionPredictor)
    (h : m.is_trained = true) :
    (∀ ts r, m.predict ts = .ok r → 0 ≤ r.predicted_energy_kwh)
    ∧ (∀ start stop step pts, m.predict_range start stop step = .ok pts →
        ∀ p ∈ pts, 0 ≤ p.2) := by
  constructor
  · intro ts r hr
    have hm : m.is_trained = false → False := by simp [h]
    unfold EnergyConsumptionPredictor.predict at hr
    rw [if_neg (by simp [h])] at hr
    cases hr
    exact round2_nonneg _ (le_max_left 0 _)
  · intro start stop step pts hpts p hp
    unfold EnergyConsumptionPredictor.predict_range at hpts
    rw [if_neg (by simp [h])] at hpts
    rcases hdr : dateRange start stop step with e | tss
    · rw [hdr] at hpts; cases hpts
    · rw [hdr] at hpts
      cases tss with
      | nil => cases hpts
      | cons t ts' =>
        simp only at hpts
        cases hpts
        simp only [List.mem_map] at hp
        obtain ⟨t0, _, rfl⟩ := hp
        exact le_max_left 0 _

theorem trained_predictions_nonneg_witness :
    0 ≤ round2 (max 0 (rawPredict trainedZero 0)) :=
  (trained_predictions_nonneg trainedZero rfl).1 0 _ rfl

/-- C8 counterexample: the claim says predict_range fails whenever
end_date is earlier than start_date or the frequency step is non-positive;
but with a negative frequency step and end before start, pandas builds a
non-empty descending timestamp range and predict_range returns a normal
result (here the two timestamps 0 and -60 with their clamped
predictions). -/
theorem predict_range_negative_freq_returns_ok :
    trainedZero.predict_range 0 (-60) (-60) = .ok [(0, 0), (-60, 0)] := by
  have hdr : dateRange 0 (-60) (-60) = .ok [0, -60] := by
    unfold dateRange
    rw [if_neg (by omega), if_neg (by omega), if_neg (by omega)]
    simp only [Except.ok.injEq]
    decide
  have hraw : ∀ ts, rawPredict trainedZero ts = 0 := by
    intro ts
    simp [rawPredict, trainedZero, extract_time_features, List.zipWith]
  unfold EnergyConsumptionPredictor.predict_range
  rw [if_neg (by simp [trainedZero]), hdr]
  simp only [Except.ok.injEq, List.map, hraw, max_self]

/-- C8 amended: on a trained forecaster, predict_range fails with an error
whenever the frequency step is zero, whenever the step is positive and
end_date is earlier than start_date, and whenever the step is negative and
start_date is earlier than end_date (that is, exactly when the generated
timestamp range is empty or the step is zero). -/
theorem predict_range_invalid_params (m : EnergyConsumptionPredictor)
    (h : m.is_trained = true) (start stop step : ℤ) :
    (step = 0 → ∃ e, m.predict_range start stop step = .error e)
    ∧ (0 < step → stop < start →
        ∃ e, m.predict_range start stop step = .error e)
    ∧ (step < 0 → start < stop →
        ∃ e, m.predict_range start stop step = .error e) := by
  refine ⟨?_, ?_, ?_⟩
  · intro hz
    refine ⟨"Offset did not increment date", ?_⟩
    unfold EnergyConsumptionPredictor.predict_range
    rw [if_neg (by simp [h])]
    unfold dateRange
    rw [if_pos hz]
  · intro hpos hlt
    refine ⟨"Expected 2D array, got 1D array instead", ?_⟩
    unfold EnergyConsumptionPredictor.predict_range
    rw [if_neg (by simp [h])]
    unfold dateRange
    rw [if_neg (by omega), if_pos hpos, if_pos hlt]
  · intro hneg hlt
    refine ⟨"Expected 2D array, got 1D array instead", ?_⟩
    unfold EnergyConsumptionPredictor.predict_range
    rw [if_neg (by simp [h])]
    unfold dateRange
    rw [if_neg (by omega), if_neg (by omega), if_pos hlt]

theorem predict_range_invalid_params_witness :
    ∃ e, trainedZero.predict_range 0 60 0 = .error e :=
  (predict_range_invalid_params trainedZero rfl 0 60 0).1 rfl

/-- A concrete trained predictor whose raw output 0.001 rounds to 0, for
the discrepancy part of the predict versus predict_range comparison. -/
theorem predict_vs_predict_range (m : EnergyConsumptionPredictor)
    (h : m.is_trained = true) (ts start stop step : ℤ) :
    (∀ r, m.predict ts = .ok r →
        r.predicted_energy_kwh = round2 (max 0 (rawPredict m ts))
        ∧ |r.predicted_energy_kwh - max 0 (rawPredict m ts)| ≤ 1 / 200)
    ∧ (∀ pts, m.predict_range start stop step = .ok pts →
        ∀ v, (ts, v) ∈ pts → v = max 0 (rawPredict m ts))
    ∧ (∃ m0 : EnergyConsumptionPredictor, ∃ ts0 : ℤ, m0.is_trained = true ∧
        ∀ r pts, m0.predict ts0 = .ok r →
          m0.predict_range ts0 ts0 1 = .ok pts →
          ∀ v, (ts0, v) ∈ pts → r.predicted_energy_kwh ≠ v) := by
  refine ⟨?_, ?_, ?_⟩
  · intro r hr
    unfold EnergyConsumptionPredictor.predict at hr
    rw [if_neg (by simp [h])] at hr
    cases hr
    exact ⟨rfl, abs_round2_sub _⟩
  · intro pts hpts v hv
    unfold EnergyConsumptionPredictor.predict_range at hpts
    rw [if_neg (by simp [h])] at hpts
    rcases hdr : dateRange start stop step with e | tss
    · rw [hdr] at hpts; cases hpts
    · rw [hdr] at hpts
      cases tss with
      | nil => cases hpts
      | cons t ts' =>
        simp only at hpts
        cases hpts
        simp only [List.mem_map] at hv
        obtain ⟨t0, _, heq⟩ := hv
        have ht : t0 = ts := congrArg Prod.fst heq
        have hv2 : max 0 (rawPredict m t0) = v := congrArg Prod.snd heq
        rw [← hv2, ht]
  · refine ⟨trainedSmallIntercept, 0, rfl, ?_⟩
    intro r pts hr hpts v hv
    have hr2 : r.predicted_energy_kwh = 0 := by
      have : trainedSmallIntercept.predict 0
          = .ok { timestamp := 0, predicted_energy_kwh := 0,
                  features := extract_time_features 0 } := by
        have hraw : rawPredict trainedSmallIntercept 0 = 1 / 1000 := by
          simp [rawPredict, trainedSmallIntercept]
        have hround : round2 (max 0 (rawPredict trainedSmallIntercept 0)) = 0 := by
          rw [hraw, max_eq_right (by norm_num : (0 : ℚ) ≤ 1 / 1000)]
          unfold round2 roundHalfEven
          have h100 : (100 : ℚ) * (1 / 1000) = 1 / 10 := by norm_num
          rw [h100]
          have hf : Int.floor ((1 : ℚ) / 10) = 0 :=
            Int.floor_eq_iff.mpr (by norm_num)
          rw [hf, if_pos (by norm_num)]
          norm_num
        unfold EnergyConsumptionPredictor.predict
        rw [if_neg (by simp [trainedSmallIntercept])]
        simp only [Except.ok.injEq, PredictResult.mk.injEq]
        exact ⟨trivial, hround, trivial⟩
      rw [this] at hr
      cases hr
      rfl
    have hpts2 : pts = [(0, 1 / 1000)] := by
      have : trainedSmallIntercept.predict_range 0 0 1
          = .ok [(0, 1 / 1000)] := by
        have hdr : dateRange 0 0 1 = .ok [0] := by
          unfold dateRange
          rw [if_neg (by omega), if_pos (by omega), if_neg (by omega)]
          simp only [Except.ok.injEq]
          decide
        have hraw : rawPredict trainedSmallIntercept 0 = 1 / 1000 := by
          simp [rawPredict, trainedSmallIntercept]
        unfold EnergyConsumptionPredictor.predict_range
        rw [if_neg (by simp [trainedSmallIntercept]), hdr]
        simp only [Except.ok.injEq, List.map, hraw,
          max_eq_right (by norm_num : (0 : ℚ) ≤ 1 / 1000)]
      rw [this] at hpts
      cases hpts
      rfl
    rw [hpts2] at hv
    simp only [List.mem_singleton] at hv
    have hv2 : v = 1 / 1000 := congrArg Prod.snd hv
    rw [hr2, hv2]
    norm_num

theorem predict_vs_predict_range_witness :
    round2 (max 0 (rawPredict trainedZero 0))
        = round2 (max 0 (rawPredict trainedZero 0))
    ∧ |round2 (max 0 (rawPredict trainedZero 0))
        - max 0 (rawPredict trainedZero 0)| ≤ 1 / 200 :=
  (predict_vs_predict_range trainedZero rfl 0 0 0 1).1 _ rfl

/-! Embedding of analysis.detect_abnormal_spikes. -/

/-- Backward-looking rolling mean with partial windows, modelling
rolling(window=w, min_periods=1).mean() at row i: the mean of
power[max(0, i-w+1) .. i]. -/
lemma deviations_length (xs : List ℚ) (w : ℕ) :
    (deviations xs w).length = xs.length := by
  simp [deviations]

lemma deviations_getD (xs : List ℚ) (w i : ℕ) (hi : i < xs.length) :
    (deviations xs w).getD i 0 = xs.getD i 0 - rollingAvg xs w i := by
  unfold deviations
  rw [List.getD_eq_getElem _ _ (by simpa using hi)]
  simp

lemma deviations_getD_of_ge (xs : List ℚ) (w i : ℕ) (hi : xs.length ≤ i) :
    (deviations xs w).getD i 0 = 0 :=
  List.getD_eq_default _ _ (by simpa [deviations_length] using hi)

lemma sampleVariance_nonneg (l : List ℚ) : 0 ≤ sampleVariance l := by
  cases l with
  | nil => simp [sampleVariance]
  | cons a t =>
    unfold sampleVariance
    apply div_nonneg
    · exact List.sum_nonneg (by
        intro x hx
        obtain ⟨y, _, rfl⟩ := List.mem_map.mp hx
        positivity)
    · have : (1 : ℚ) ≤ ((a :: t).length : ℚ) := by
        exact_mod_cast Nat.succ_le_of_lt (List.length_pos.mpr (by simp))
      linarith

lemma anomaly_iff_sq (xs : List ℚ) (w : ℕ) (t : ℚ) (ht : 0 ≤ t) (i : ℕ) :
    IsAnomalyAt xs w t i ↔
      (0 < (deviations xs w).getD i 0
        ∧ t ^ 2 * sampleVariance (deviations xs w)
            < ((deviations xs w).getD i 0) ^ 2) := by
  set d : ℚ := (deviations xs w).getD i 0 with hd
  set v : ℚ := sampleVariance (deviations xs w) with hv
  have hv0 : (0 : ℝ) ≤ (v : ℝ) := by exact_mod_cast sampleVariance_nonneg _
  have ht0 : (0 : ℝ) ≤ (t : ℝ) := by exact_mod_cast ht
  have hs0 : (0 : ℝ) ≤ Real.sqrt (v : ℝ) := Real.sqrt_nonneg _
  have hts : (0 : ℝ) ≤ (t : ℝ) * Real.sqrt (v : ℝ) := mul_nonneg ht0 hs0
  have hsq : ((t : ℝ) * Real.sqrt (v : ℝ)) ^ 2 = (t : ℝ) ^ 2 * (v : ℝ) := by
    rw [mul_pow, Real.sq_sqrt hv0]
  constructor
  · intro h
    unfold IsAnomalyAt at h
    rw [← hd, ← hv] at h
    have hdpos : (0 : ℝ) < (d : ℝ) := lt_of_le_of_lt hts h
    refine ⟨by exact_mod_cast hdpos, ?_⟩
    have h2 : ((t : ℝ) * Real.sqrt (v : ℝ)) ^ 2 < (d : ℝ) ^ 2 :=
      pow_lt_pow_left₀ h hts (by norm_num)
    rw [hsq] at h2
    exact_mod_cast h2
  · rintro ⟨hdpos, hlt⟩
    have hdpos2 : (0 : ℝ) < (d : ℝ) := by exact_mod_cast hdpos
    have hlt2 : ((t : ℝ) * Real.sqrt (v : ℝ)) ^ 2 < (d : ℝ) ^ 2 := by
      rw [hsq]
      exact_mod_cast hlt
    have := lt_of_pow_lt_pow_left₀ 2 (le_of_lt hdpos2) hlt2
    unfold IsAnomalyAt
    rw [← hd, ← hv]
    exact this

lemma sum_zero_of_nonneg (l : List ℚ) (h : ∀ x ∈ l, 0 ≤ x)
    (hs : l.sum = 0) : ∀ x ∈ l, x = 0 := by
  induction l with
  | nil => intro x hx; cases hx
  | cons a t ih =>
    have ha : 0 ≤ a := h a (List.mem_cons_self a t)
    have ht : 0 ≤ t.sum :=
      List.sum_nonneg (fun x hx => h x (List.mem_cons_of_mem _ hx))
    have hsum : a + t.sum = 0 := by simpa using hs
    intro x hx
    rcases List.mem_cons.mp hx with rfl | hx'
    · linarith
    · exact ih (fun y hy => h y (List.mem_cons_of_mem _ hy)) (by linarith) x hx'

lemma deviations_getD_zero_head (xs : List ℚ) (w : ℕ) (hw : 1 ≤ w)
    (hne : xs ≠ []) : (deviations xs w).getD 0 0 = 0 := by
  obtain ⟨a, t, rfl⟩ := List.exists_cons_of_ne_nil hne
  rw [deviations_getD _ _ _ (by simp)]
  have hwin : ((a :: t).take 1).drop (1 - w) = [a] := by
    have h0 : 1 - w = 0 := by omega
    simp [h0, List.take]
  unfold rollingAvg
  rw [show (0 : ℕ) + 1 = 1 from rfl, hwin]
  simp

lemma devs_all_zero_of_var_zero (xs : List ℚ) (w : ℕ) (hw : 1 ≤ w)
    (hv : sampleVariance (deviations xs w) = 0) :
    ∀ x ∈ deviations xs w, x = 0 := by
  by_cases hxs : xs = []
  · subst hxs
    intro x hx
    simp [deviations] at hx
  · have hd0 : (deviations xs w).getD 0 0 = 0 :=
      deviations_getD_zero_head xs w hw hxs
    have hlen : 0 < (deviations xs w).length := by
      rw [deviations_length]
      exact List.length_pos.mpr hxs
    have hd0mem : (0 : ℚ) ∈ deviations xs w := by
      rw [← hd0, List.getD_eq_getElem _ _ hlen]
      exact List.getElem_mem _
    set l := deviations xs w with hl
    unfold sampleVariance at hv
    by_cases hlen2 : 2 ≤ l.length
    · have hden : (0 : ℚ) < (l.length : ℚ) - 1 := by
        have h2 : (2 : ℚ) ≤ (l.length : ℚ) := by exact_mod_cast hlen2
        linarith
      have hnum :
          (l.map (fun x => (x - l.sum / (l.length : ℚ)) ^ 2)).sum = 0 := by
        rcases div_eq_zero_iff.mp hv with h | h
        · exact h
        · exact absurd h (ne_of_gt hden)
      have hall : ∀ y ∈ l.map (fun x => (x - l.sum / (l.length : ℚ)) ^ 2),
          y = 0 := by
        apply sum_zero_of_nonneg
        · intro y hy
          obtain ⟨x, _, rfl⟩ := List.mem_map.mp hy
          positivity
        · exact hnum
      have heqm : ∀ x ∈ l, x = l.sum / (l.length : ℚ) := by
        intro x hx
        have h2 := hall _ (List.mem_map_of_mem _ hx)
        have h3 : x - l.sum / (l.length : ℚ) = 0 :=
          (pow_eq_zero_iff (by norm_num : 2 ≠ 0)).mp h2
        linarith
      have hm0 : l.sum / (l.length : ℚ) = 0 := (heqm 0 hd0mem).symm
      intro x hx
      rw [heqm x hx, hm0]
    · have hlen1 : l.length = 1 := by omega
      obtain ⟨a, ha⟩ := List.length_eq_one.mp hlen1
      intro x hx
      rw [ha] at hx hd0mem
      have hxa : x = a := List.mem_singleton.mp hx
      have h0a : (0 : ℚ) = a := List.mem_singleton.mp hd0mem
      rw [hxa, ← h0a]

lemma no_anomaly_of_var_zero (xs : List ℚ) (w : ℕ) (t : ℚ) (hw : 1 ≤ w)
    (hv : sampleVariance (deviations xs w) = 0) :
    ∀ i, ¬ IsAnomalyAt xs w t i := by
  intro i h
  unfold IsAnomalyAt at h
  rw [hv] at h
  have hd : (deviations xs w).getD i 0 = 0 := by
    by_cases hi : i < (deviations xs w).length
    · exact devs_all_zero_of_var_zero xs w hw hv _
        (by rw [List.getD_eq_getElem _ _ hi]; exact List.getElem_mem _)
    · exact List.getD_eq_default _ _ (by omega)
  rw [hd] at h
  simp [Real.sqrt_zero] at h

lemma deviations_getD_w1 (xs : List ℚ) (i : ℕ) :
    (deviations xs 1).getD i 0 = 0 := by
  by_cases hi : i < xs.length
  · rw [deviations_getD _ _ _ hi]
    have hwin : (xs.take (i + 1)).drop (i + 1 - 1) = [xs.getD i 0] := by
      have h1 : i + 1 - 1 = i := by omega
      rw [h1, List.drop_take]
      have h2 : i + 1 - i = 1 := by omega
      rw [h2, List.getD_eq_getElem _ _ hi, List.drop_eq_getElem_cons hi,
        show (1 : ℕ) = 0 + 1 from rfl, List.take_succ_cons, List.take_zero]
    unfold rollingAvg
    rw [hwin]
    simp
  · exact deviations_getD_of_ge _ _ _ (by omega)

lemma sampleVariance_of_all_zero (l : List ℚ) (h : ∀ x ∈ l, x = 0) :
    sampleVariance l = 0 := by
  have hsum : l.sum = 0 := List.sum_eq_zero h
  unfold sampleVariance
  have hmap : ∀ y ∈ l.map (fun x => (x - l.sum / (l.length : ℚ)) ^ 2),
      y = 0 := by
    intro y hy
    obtain ⟨x, hx, rfl⟩ := List.mem_map.mp hy
    rw [h x hx, hsum]
    simp
  rw [List.sum_eq_zero hmap]
  simp

lemma sum_of_const (l : List ℚ) (c : ℚ) (hc : ∀ x ∈ l, x = c) :
    l.sum = (l.length : ℚ) * c := by
  induction l with
  | nil => simp
  | cons a t ih =>
    have ha : a = c := hc a (List.mem_cons_self a t)
    have ht : ∀ x ∈ t, x = c := fun x hx => hc x (List.mem_cons_of_mem _ hx)
    rw [List.sum_cons, ih ht, ha, List.length_cons]
    push_cast
    ring

lemma mean_of_const (l : List ℚ) (c : ℚ) (hl : l ≠ [])
    (hc : ∀ x ∈ l, x = c) : l.sum / (l.length : ℚ) = c := by
  rw [sum_of_const l c hc]
  have hn : (l.length : ℚ) ≠ 0 := by
    exact_mod_cast fun h0 => hl (List.length_eq_zero.mp h0)
  field_simp

lemma deviations_of_const (xs : List ℚ) (w : ℕ) (c : ℚ) (hw : 1 ≤ w)
    (hc : ∀ x ∈ xs, x = c) : ∀ i, (deviations xs w).getD i 0 = 0 := by
  intro i
  by_cases hi : i < xs.length
  · rw [deviations_getD _ _ _ hi]
    have hxi : xs.getD i 0 = c := by
      rw [List.getD_eq_getElem _ _ hi]
      exact hc _ (List.getElem_mem _)
    have hlenwin : 1 ≤ ((xs.take (i + 1)).drop (i + 1 - w)).length := by
      rw [List.length_drop, List.length_take]
      omega
    have hwinne : (xs.take (i + 1)).drop (i + 1 - w) ≠ [] := by
      intro h0
      rw [h0] at hlenwin
      simp at hlenwin
    have hwc : ∀ x ∈ (xs.take (i + 1)).drop (i + 1 - w), x = c :=
      fun x hx => hc x (List.mem_of_mem_take (List.mem_of_mem_drop hx))
    unfold rollingAvg
    rw [mean_of_const _ c hwinne hwc, hxi]
    ring
  · exact deviations_getD_of_ge _ _ _ (by omega)

lemma all_zero_of_getD_zero (l : List ℚ) (h : ∀ i, l.getD i 0 = 0) :
    ∀ x ∈ l, x = 0 := by
  intro x hx
  obtain ⟨n, rfl⟩ := List.mem_iff_get.mp hx
  have := h n.1
  rw [List.getD_eq_getElem _ _ n.isLt] at this
  simpa using this

/-- C6: whenever the deviation series has zero sample variance no row is
flagged for any threshold (the comparison is strict against zero); with
window_size 1 every deviation is zero and no row is flagged; on a constant
power series no row is flagged. -/
theorem anomaly_zero_variance_guard (xs : List ℚ) (w : ℕ) (t : ℚ)
    (hw : 1 ≤ w) :
    (sampleVariance (deviations xs w) = 0 → ∀ i, ¬ IsAnomalyAt xs w t i)
    ∧ (∀ i, (deviations xs 1).getD i 0 = 0)
    ∧ (∀ i, ¬ IsAnomalyAt xs 1 t i)
    ∧ ((∀ x ∈ xs, ∀ y ∈ xs, x = y) → ∀ i, ¬ IsAnomalyAt xs w t i) := by
  refine ⟨fun hv => no_anomaly_of_var_zero xs w t hw hv,
    deviations_getD_w1 xs, ?_, ?_⟩
  · have hall : ∀ x ∈ deviations xs 1, x = 0 :=
      all_zero_of_getD_zero _ (deviations_getD_w1 xs)
    exact no_anomaly_of_var_zero xs 1 t (le_refl 1)
      (sampleVariance_of_all_zero _ hall)
  · intro hconst
    by_cases hxs : xs = []
    · subst hxs
      apply no_anomaly_of_var_zero [] w t hw
      simp [deviations, sampleVariance]
    · obtain ⟨a, s, rfl⟩ := List.exists_cons_of_ne_nil hxs
      have hc : ∀ x ∈ a :: s, x = a :=
        fun x hx => hconst x hx a (List.mem_cons_self a s)
      have hall : ∀ x ∈ deviations (a :: s) w, x = 0 :=
        all_zero_of_getD_zero _ (deviations_of_const (a :: s) w a hw hc)
      exact no_anomaly_of_var_zero _ w t hw
        (sampleVariance_of_all_zero _ hall)

theorem anomaly_zero_variance_guard_witness :
    ¬ IsAnomalyAt [5, 5] 1 7 0 :=
  (anomaly_zero_variance_guard [5, 5] 1 7 (le_refl 1)).2.2.1 0

/-- The power series of the spike-detection scenario in the spec. -/
theorem spike_example_flags_only_index5 :
    (detect_abnormal_spikes spikeExample 3 2).length = 9
    ∧ ∀ i r, (detect_abnormal_spikes spikeExample 3 2).get? i = some r →
        (r.is_anomaly ↔ i = 5) := by
  constructor
  · simp [detect_abnormal_spikes, spikeExample]
  · intro i r hget
    obtain ⟨hlt, hgetEq⟩ := List.get?_eq_some.mp hget
    have hi : i < 9 := by
      have hlen : (detect_abnormal_spikes spikeExample 3 2).length = 9 := by
        simp [detect_abnormal_spikes, spikeExample]
      omega
    have hr : r.is_anomaly = IsAnomalyAt spikeExample 3 2 i := by
      rw [List.get_eq_getElem] at hgetEq
      unfold detect_abnormal_spikes at hgetEq
      rw [List.getElem_map, List.getElem_range] at hgetEq
      rw [← hgetEq]
    rw [hr, anomaly_iff_sq spikeExample 3 2 (by norm_num) i]
    have hdev : deviations spikeExample 3
        = [0, 1/2, 1, -1/3, -1, 79/3, -38/3, -41/3, -1] := by
      unfold deviations
      rw [show spikeExample.length = 9 from rfl,
        show List.range 9 = [0, 1, 2, 3, 4, 5, 6, 7, 8] from rfl]
      norm_num [spikeExample, rollingAvg]
    have hvar : sampleVariance
        ([0, 1/2, 1, -1/3, -1, 79/3, -38/3, -41/3, -1] : List ℚ)
        = 10570 / 81 := by
      norm_num [sampleVariance]
    rw [hdev, hvar]
    interval_cases i <;>
      norm_num [List.getD_cons_zero, List.getD_cons_succ]

theorem spike_example_flags_only_index5_witness :
    ∃ r, (detect_abnormal_spikes spikeExample 3 2).get? 5 = some r
      ∧ (r.is_anomaly ↔ 5 = 5) :=
  ⟨_, rfl, spike_example_flags_only_index5.2 5 _ rfl⟩

/-! Embedding of analysis.identify_peak_periods. -/

/-- Linear interpolation between order statistics of a sorted list at the
real-valued rank h: s[floor h] + (h - floor h) * (s[ceil h] - s[floor h]).
This is the pandas default (linear) quantile interpolation. -/
lemma sorted_getD_mono (s : List ℚ) (hs : List.Sorted (· ≤ ·) s)
    (i j : ℕ) (hij : i ≤ j) (hj : j < s.length) :
    s.getD i 0 ≤ s.getD j 0 := by
  have hi : i < s.length := lt_of_le_of_lt hij hj
  rw [List.getD_eq_getElem _ _ hi, List.getD_eq_getElem _ _ hj]
  rcases eq_or_lt_of_le hij with rfl | hlt
  · exact le_refl _
  · exact List.pairwise_iff_getElem.mp hs i j hi hj hlt

lemma interpAt_ge_floor (s : List ℚ) (hs : List.Sorted (· ≤ ·) s)
    (h : ℚ) (_h0 : 0 ≤ h) (hceil : (Int.ceil h).toNat < s.length) :
    s.getD (Int.floor h).toNat 0 ≤ interpAt s h := by
  have hfrac : (0 : ℚ) ≤ h - Int.floor h :=
    sub_nonneg.mpr (Int.floor_le h)
  have hfc : Int.floor h ≤ Int.ceil h := Int.floor_le_ceil h
  have hdiff : s.getD (Int.floor h).toNat 0 ≤ s.getD (Int.ceil h).toNat 0 :=
    sorted_getD_mono s hs _ _ (by omega) hceil
  unfold interpAt
  nlinarith [mul_nonneg hfrac (sub_nonneg.mpr hdiff)]

lemma interpAt_le_ceil (s : List ℚ) (hs : List.Sorted (· ≤ ·) s)
    (h : ℚ) (_h0 : 0 ≤ h) (hceil : (Int.ceil h).toNat < s.length) :
    interpAt s h ≤ s.getD (Int.ceil h).toNat 0 := by
  have hfrac : h - Int.floor h ≤ 1 := by
    have := Int.lt_floor_add_one h
    linarith
  have hfc : Int.floor h ≤ Int.ceil h := Int.floor_le_ceil h
  have hdiff : s.getD (Int.floor h).toNat 0 ≤ s.getD (Int.ceil h).toNat 0 :=
    sorted_getD_mono s hs _ _ (by omega) hceil
  unfold interpAt
  nlinarith [mul_le_mul_of_nonneg_right hfrac (sub_nonneg.mpr hdiff)]

lemma interpAt_mono (s : List ℚ) (hs : List.Sorted (· ≤ ·) s)
    (h1 h2 : ℚ) (h0 : 0 ≤ h1) (h12 : h1 ≤ h2)
    (hc2 : (Int.ceil h2).toNat < s.length) :
    interpAt s h1 ≤ interpAt s h2 := by
  have h02 : 0 ≤ h2 := le_trans h0 h12
  have hcc : Int.ceil h1 ≤ Int.ceil h2 := Int.ceil_mono h12
  have hfl1 : 0 ≤ Int.floor h1 := Int.floor_nonneg.mpr h0
  have hfl2 : 0 ≤ Int.floor h2 := Int.floor_nonneg.mpr h02
  have hc1 : (Int.ceil h1).toNat < s.length := by omega
  by_cases hff : Int.floor h1 = Int.floor h2
  · by_cases hint : h1 = Int.floor h1
    · have he1 : interpAt s h1 = s.getD (Int.floor h1).toNat 0 := by
        unfold interpAt
        rw [← hint]
        ring
      rw [he1, hff]
      exact interpAt_ge_floor s hs h2 h02 hc2
    · have hlt1 : (Int.floor h1 : ℚ) < h1 :=
        lt_of_le_of_ne (Int.floor_le h1) (fun h => hint h.symm)
      have hce1 : Int.ceil h1 = Int.floor h1 + 1 :=
        Int.ceil_eq_iff.mpr ⟨by push_cast; linarith,
          by push_cast; linarith [Int.lt_floor_add_one h1]⟩
      have hlt2 : (Int.floor h2 : ℚ) < h2 := by
        rw [← hff]
        calc (Int.floor h1 : ℚ) < h1 := hlt1
          _ ≤ h2 := h12
      have hce2 : Int.ceil h2 = Int.floor h2 + 1 :=
        Int.ceil_eq_iff.mpr ⟨by push_cast; linarith,
          by push_cast; linarith [Int.lt_floor_add_one h2]⟩
      have hdiff : s.getD (Int.floor h2).toNat 0
          ≤ s.getD (Int.ceil h2).toNat 0 :=
        sorted_getD_mono s hs _ _ (by omega) hc2
      have hdiff2 : s.getD (Int.floor h2).toNat 0
          ≤ s.getD (Int.floor h2 + 1).toNat 0 := by
        rw [← hce2]
        exact hdiff
      unfold interpAt
      rw [hce1, hce2, hff]
      have hmul := mul_le_mul_of_nonneg_right
        (by linarith : h1 - (Int.floor h2 : ℚ) ≤ h2 - (Int.floor h2 : ℚ))
        (sub_nonneg.mpr hdiff2)
      linarith
  · have hlt : Int.floor h1 < Int.floor h2 :=
      lt_of_le_of_ne (Int.floor_mono h12) hff
    have hcf : Int.ceil h1 ≤ Int.floor h2 := by
      have := Int.ceil_le_floor_add_one h1
      omega
    calc interpAt s h1
        ≤ s.getD (Int.ceil h1).toNat 0 := interpAt_le_ceil s hs h1 h0 hc1
      _ ≤ s.getD (Int.floor h2).toNat 0 := by
          apply sorted_getD_mono s hs _ _ (by omega)
          have hfc2 : Int.floor h2 ≤ Int.ceil h2 := Int.floor_le_ceil h2
          omega
      _ ≤ interpAt s h2 := interpAt_ge_floor s hs h2 h02 hc2

lemma identify_ok_threshold (xs : List ℚ) (p : ℚ) (hne : xs ≠ [])
    (r : PeakSummary) (h : identify_peak_periods xs p = .ok r) :
    r.peak_threshold = quantileLinear xs (p / 100) := by
  unfold identify_peak_periods at h
  rw [if_neg hne] at h
  cases h
  rfl

lemma sorted_ne_nil (xs : List ℚ) (hne : xs ≠ []) :
    List.insertionSort (· ≤ ·) xs ≠ [] := by
  intro h0
  have := List.length_insertionSort (· ≤ ·) xs
  rw [h0] at this
  exact hne (List.length_eq_zero.mp this.symm)

lemma quantile_zero_is_min (xs : List ℚ) (hne : xs ≠ []) :
    quantileLinear xs (0 / 100) ∈ xs
      ∧ ∀ y ∈ xs, quantileLinear xs (0 / 100) ≤ y := by
  have hq : quantileLinear xs (0 / 100)
      = (List.insertionSort (· ≤ ·) xs).getD 0 0 := by
    unfold quantileLinear interpAt
    norm_num
  obtain ⟨a, t, hs⟩ :=
    List.exists_cons_of_ne_nil (sorted_ne_nil xs hne)
  have hsorted : List.Sorted (· ≤ ·) (a :: t) := by
    rw [← hs]
    exact List.sorted_insertionSort (· ≤ ·) xs
  have hval : quantileLinear xs (0 / 100) = a := by
    rw [hq, hs]
    rfl
  constructor
  · rw [hval]
    have : a ∈ List.insertionSort (· ≤ ·) xs := by
      rw [hs]
      exact List.mem_cons_self a t
    exact (List.mem_insertionSort _).mp this
  · intro y hy
    rw [hval]
    have hy' : y ∈ a :: t := by
      rw [← hs]
      exact (List.mem_insertionSort _).mpr hy
    rcases List.mem_cons.mp hy' with rfl | hy2
    · exact le_refl _
    · exact List.rel_of_sorted_cons hsorted y hy2

lemma quantile_one_is_max (xs : List ℚ) (hne : xs ≠ []) :
    quantileLinear xs (100 / 100) ∈ xs
      ∧ ∀ y ∈ xs, y ≤ quantileLinear xs (100 / 100) := by
  set s := List.insertionSort (· ≤ ·) xs with hsdef
  have hsorted : List.Sorted (· ≤ ·) s := List.sorted_insertionSort (· ≤ ·) xs
  have hslen : s.length = xs.length := List.length_insertionSort (· ≤ ·) xs
  have hn1 : 1 ≤ xs.length := List.length_pos.mpr hne
  have hlast : xs.length - 1 < s.length := by omega
  have hq : quantileLinear xs (100 / 100) = s.getD (xs.length - 1) 0 := by
    unfold quantileLinear interpAt
    have hcast : (100 : ℚ) / 100 * ((xs.length : ℚ) - 1)
        = (((xs.length : ℤ) - 1 : ℤ) : ℚ) := by
      push_cast
      ring
    rw [hcast, Int.floor_intCast, Int.ceil_intCast,
      show ((xs.length : ℤ) - 1).toNat = xs.length - 1 by omega]
    ring
  constructor
  · rw [hq, List.getD_eq_getElem _ _ hlast]
    exact (List.mem_insertionSort _).mp (List.getElem_mem _)
  · intro y hy
    rw [hq]
    have hy' : y ∈ s := (List.mem_insertionSort _).mpr hy
    obtain ⟨idx, hidx⟩ := List.mem_iff_get.mp hy'
    rw [← hidx, List.get_eq_getElem, ← List.getD_eq_getElem s 0 idx.isLt]
    exact sorted_getD_mono s hsorted _ _ (by omega) hlast

/-- C4: for a fixed non-empty reading set, the peak_threshold of
identify_peak_periods is monotonically non-decreasing in the percentile;
at percentile 0 the threshold is the minimum of the power series
(a member below every element) and at percentile 100 it is the maximum. -/
theorem peak_threshold_monotone_and_extremes (xs : List ℚ) (p q : ℚ)
    (hne : xs ≠ []) (hp : 0 ≤ p) (hpq : p ≤ q) (hq : q ≤ 100) :
    (∀ r1 r2, identify_peak_periods xs p = .ok r1 →
        identify_peak_periods xs q = .ok r2 →
        r1.peak_threshold ≤ r2.peak_threshold)
    ∧ (∀ r0, identify_peak_periods xs 0 = .ok r0 →
        r0.peak_threshold ∈ xs ∧ ∀ y ∈ xs, r0.peak_threshold ≤ y)
    ∧ (∀ r100, identify_peak_periods xs 100 = .ok r100 →
        r100.peak_threshold ∈ xs ∧ ∀ y ∈ xs, y ≤ r100.peak_threshold) := by
  refine ⟨?_, ?_, ?_⟩
  · intro r1 r2 h1 h2
    rw [identify_ok_threshold xs p hne r1 h1,
      identify_ok_threshold xs q hne r2 h2]
    unfold quantileLinear
    have hsorted : List.Sorted (· ≤ ·) (List.insertionSort (· ≤ ·) xs) :=
      List.sorted_insertionSort (· ≤ ·) xs
    have hslen : (List.insertionSort (· ≤ ·) xs).length = xs.length :=
      List.length_insertionSort (· ≤ ·) xs
    have hn1 : 1 ≤ xs.length := List.length_pos.mpr hne
    have hnn : (0 : ℚ) ≤ (xs.length : ℚ) - 1 := by
      have : (1 : ℚ) ≤ (xs.length : ℚ) := by exact_mod_cast hn1
      linarith
    have hceil : (Int.ceil (q / 100 * ((xs.length : ℚ) - 1))).toNat
        < (List.insertionSort (· ≤ ·) xs).length := by
      have hle : q / 100 * ((xs.length : ℚ) - 1) ≤ (xs.length : ℚ) - 1 := by
        have hq1 : q / 100 ≤ 1 := by
          rw [div_le_one (by norm_num : (0 : ℚ) < 100)]
          exact hq
        nlinarith
      have hc : Int.ceil (q / 100 * ((xs.length : ℚ) - 1))
          ≤ (xs.length : ℤ) - 1 := by
        apply Int.ceil_le.mpr
        push_cast
        linarith
      omega
    apply interpAt_mono _ hsorted
    · exact mul_nonneg (div_nonneg hp (by norm_num)) hnn
    · refine mul_le_mul_of_nonneg_right ?_ hnn
      rw [div_le_div_iff_of_pos_right (by norm_num : (0 : ℚ) < 100)]
      exact hpq
    · exact hceil
  · intro r0 h0
    rw [identify_ok_threshold xs 0 hne r0 h0]
    exact quantile_zero_is_min xs hne
  · intro r100 h100
    rw [identify_ok_threshold xs 100 hne r100 h100]
    exact quantile_one_is_max xs hne

theorem peak_threshold_monotone_witness :
    ∃ r1 r2, identify_peak_periods [1, 3] 25 = .ok r1
      ∧ identify_peak_periods [1, 3] 75 = .ok r2
      ∧ r1.peak_threshold ≤ r2.peak_threshold := by
  have h := (peak_threshold_monotone_and_extremes [1, 3] 25 75 (by simp)
    (by norm_num) (by norm_num) (by norm_num)).1
  exact ⟨_, _, rfl, rfl, h _ _ rfl rfl⟩

/-- C7: on an empty reading set, identify_peak_periods fails with an
error, while calculate_daily_consumption and detect_abnormal_spikes return
an empty result rather than failing. -/
theorem empty_input_behavior (p : ℚ) (w : ℕ) (t : ℚ) :
    (∃ e, identify_peak_periods [] p = .error e)
    ∧ calculate_daily_consumption [] = []
    ∧ detect_abnormal_spikes [] w t = [] := by
  refine ⟨⟨"division by zero", rfl⟩, rfl, ?_⟩
  simp [detect_abnormal_spikes]

end SmartEnergy
